import Mathlib

/-!
Verification development for the sustainable-travel RAG backend.

Each Python function under study is shallow-embedded as a Lean definition:
pure computations become Lean functions over `Nat`/`Int`/`ℚ`/`String`/`List`,
stateful methods become explicit state-passing functions, and fallible steps
return `Except`.  Remote collaborators (vector store, LLM, retriever) are
passed in as function parameters so that theorems can quantify over their
behaviour.
-/

/-! ## Confidence scoring
Embedding of `SustainableTravelRAGService._calculate_confidence`
(src/services/rasa/services/langchain_service.py, lines 326-337):

```python
source_docs = result.get("source_documents", [])
if not source_docs:
    return 0.3
num_sources = len(source_docs)
answer_length = len(result.get("answer", ""))
confidence = min(0.9, 0.5 + (num_sources * 0.1) + (min(answer_length, 500) / 1000))
return round(confidence, 2)
```

Python's `round(x, 2)` rounds to two decimal places, half to even; it is
modelled exactly on rationals. -/

/-- Round a rational to the nearest integer, halves to the even neighbour
(the documented behaviour of Python's builtin `round`). -/
def roundHalfEven (x : ℚ) : ℤ :=
  let f := ⌊x⌋
  let r := x - (f : ℚ)
  if r < 1/2 then f
  else if 1/2 < r then f + 1
  else if f % 2 = 0 then f else f + 1

/-- Python's `round(x, 2)`: round to two decimal places, half to even. -/
def pyRound2 (x : ℚ) : ℚ := (roundHalfEven (100 * x) : ℚ) / 100

/-- `SustainableTravelRAGService._calculate_confidence`, embedded over the
list of retrieved source documents and the answer text. -/
def calculate_confidence (sourceDocs : List α) (answer : String) : ℚ :=
  if sourceDocs.isEmpty then 3/10
  else
    pyRound2 (min (9/10)
      (1/2 + (sourceDocs.length : ℚ) * (1/10) + ((min answer.length 500 : ℕ) : ℚ) / 1000))

/-- Under the outer `min 0.9` cap, capping the source count at 4 makes no
difference: with five or more sources both sides saturate at 0.9. -/
lemma confidence_cap_min4 (n : ℕ) (x : ℚ) (hx : 0 ≤ x) :
    min (9/10 : ℚ) (1/2 + (n : ℚ) * (1/10) + x) =
    min (9/10 : ℚ) (1/2 + ((min n 4 : ℕ) : ℚ) * (1/10) + x) := by
  rcases le_or_lt n 4 with h | h
  · rw [Nat.min_eq_left h]
  · have h5 : (5 : ℚ) ≤ (n : ℚ) := by exact_mod_cast h
    have hL : (9/10 : ℚ) ≤ 1/2 + (n : ℚ) * (1/10) + x := by nlinarith
    have hR : (9/10 : ℚ) ≤ 1/2 + ((min n 4 : ℕ) : ℚ) * (1/10) + x := by
      rw [Nat.min_eq_right h.le]; push_cast; nlinarith
    rw [min_eq_left hL, min_eq_left hR]

/-- C1 (counterexample): with one source document and the three-character
answer `"abc"`, the claimed formula yields 0.603, but the code rounds the
confidence to two decimal places and returns 0.6. -/
theorem C1_confidence_counterexample :
    calculate_confidence [(0 : ℕ)] "abc" ≠
      min (9/10 : ℚ)
        (1/2 + (1/10) * ((min 1 4 : ℕ) : ℚ) + ((min "abc".length 500 : ℕ) : ℚ) / 1000) := by
  norm_num [calculate_confidence, pyRound2, roundHalfEven, String.length]

/-- C1 (amended): with zero retrieved sources the confidence is the fixed
value 0.3; otherwise it equals the spec's formula
`min(0.9, 0.5 + 0.1·min(sourceCount,4) + min(answerLength,500)/1000)`
rounded to two decimal places (half to even) — the code omits the
`min(sourceCount, 4)` cap, but the outer `min 0.9` makes the two readings
agree before rounding. -/
theorem C1_confidence_formula (sourceDocs : List α) (answer : String) :
    (sourceDocs = [] → calculate_confidence sourceDocs answer = 3/10) ∧
    (sourceDocs ≠ [] →
      calculate_confidence sourceDocs answer =
        pyRound2 (min (9/10)
          (1/2 + ((min sourceDocs.length 4 : ℕ) : ℚ) * (1/10)
             + ((min answer.length 500 : ℕ) : ℚ) / 1000))) := by
  constructor
  · intro h
    simp [calculate_confidence, h]
  · intro h
    have hne : sourceDocs.isEmpty = false := by
      simpa [List.isEmpty_iff] using h
    have hx : (0:ℚ) ≤ ((min answer.length 500 : ℕ) : ℚ) / 1000 := by positivity
    simp only [calculate_confidence, hne, Bool.false_eq_true, if_false]
    rw [confidence_cap_min4 _ _ hx]

/-- C1 (witness): the amended formula evaluated at one source and answer
`"abc"` gives 0.6. -/
theorem C1_confidence_formula_witness :
    ([(0 : ℕ)] : List ℕ) ≠ [] ∧ calculate_confidence [(0 : ℕ)] "abc" = 6/10 := by
  refine ⟨by decide, ?_⟩
  have h := (C1_confidence_formula ([(0 : ℕ)] : List ℕ) "abc").2 (by decide)
  rw [h]
  norm_num [pyRound2, roundHalfEven, String.length]

/-! ## String helpers
Python's `str.lower()` and `str.strip()`, modelled over the character list
(Lean's built-in `String.toLower`/`String.trim` are extensionally the same
but their byte-position loops do not reduce inside the kernel). -/

/-- Python `s.lower()`. -/
def py_lower (s : String) : String := String.mk (s.toList.map Char.toLower)

/-- Python `s.strip()`: remove whitespace from both ends. -/
def py_strip (s : String) : String :=
  String.mk (((s.toList.dropWhile Char.isWhitespace).reverse.dropWhile
      Char.isWhitespace).reverse)

/-- Substring test on character lists, `needle.isPrefixOf` at every suffix. -/
def has_sub (needle : List Char) : List Char → Bool
  | [] => needle.isEmpty
  | c :: rest => needle.isPrefixOf (c :: rest) || has_sub needle rest

/-- Python `needle in hay` on strings (substring containment). -/
def str_contains (hay needle : String) : Bool := has_sub needle.toList hay.toList

/-! ## RAGProcessor (src/rag_system/rag_pipeline.py)

The class holds an in-memory response cache (`langchain.cache.InMemoryCache`,
a dictionary from query to answer as the code uses it), a list of response
times and a token counter; the conversation memory object is constructed in
`__init__` but never touched by `ask`, so it is not part of the state.
External collaborators (retriever, LLM pipeline, tokenizer, clock) are
passed in as an `AskDeps` record; fallible ones return `Except`. -/

/-- Mutable state of a `RAGProcessor` instance. -/
structure RAGState where
  cache : List (String × String)
  response_times : List ℚ
  token_usage : ℕ

/-- External collaborators of `RAGProcessor.ask`. -/
structure AskDeps where
  retrieve : String → Except String (List (String × List (String × String)))
  generate : String → Except String String
  generate_stream : String → Except String (List String)
  encode_len : String → ℕ
  elapsed : ℚ

/-- `RAGProcessor._cache_get`, a dictionary lookup. -/
def cache_get (cache : List (String × String)) (query : String) : Option String :=
  cache.lookup query

/-- `RAGProcessor._cache_set`, a dictionary update: overwrite the entry for
the key if present, otherwise append it. -/
def cache_set (cache : List (String × String)) (query response : String) :
    List (String × String) :=
  if cache.any (fun e => e.1 == query) then
    cache.map (fun e => if e.1 == query then (query, response) else e)
  else cache ++ [(query, response)]

/-- `RAGProcessor._track_performance`: append the elapsed time and add the
token count. -/
def track_performance (st : RAGState) (elapsed : ℚ) (tokens : ℕ) : RAGState :=
  { st with response_times := st.response_times ++ [elapsed],
            token_usage := st.token_usage + tokens }

/-- `RAGProcessor._filter_response`: the eco-relevance check only logs a
warning, so the returned value is just `response.strip()`. -/
def filter_response (response : String) : String := py_strip response

/-- `RAGProcessor._fact_check`: a stub that always succeeds. -/
def fact_check (_response _context : String) : Bool := true

/-- The prompt template of `RAGProcessor`, with context and question
substituted. -/
def rag_prompt (context question : String) : String :=
  "\nYou are a sustainable travel assistant. Use the following context to answer the user\x27s question. \nIf you don\x27t know, say so honestly. Be concise, factual, and eco-friendly.\n\nContext:\n"
    ++ context ++ "\n\nQuestion:\n" ++ question ++ "\n\nEco-Travel Answer:\n"

/-- The three shapes of value `RAGProcessor.ask` can produce: a cache hit
(a dict with only `answer` and `cached` keys), a fresh non-streaming answer,
or the streamed chunk sequence. -/
inductive AskResult where
  | cachedHit (answer : String)
  | fresh (answer : String) (source_documents : List (List (String × String)))
      (tokens : ℕ) (response_time : ℚ)
  | streamed (chunks : List String)

/-- `RAGProcessor.ask`.  Python truthiness of `if cached:` means a hit
requires a present, non-empty cached string.  In the streaming branch the
code yields the chunks, computes a token count it never stores, and falls
off the end of the function: no filtering, fact-check, cache write or
statistics update happens there. -/
def ask (deps : AskDeps) (st : RAGState) (question : String) (stream : Bool) :
    Except String (AskResult × RAGState) :=
  if (cache_get st.cache question).getD "" ≠ "" then
    .ok (.cachedHit ((cache_get st.cache question).getD ""), st)
  else
    match deps.retrieve question with
    | .error e => .error e
    | .ok docs =>
      let context := String.intercalate "\n" (docs.map (·.1))
      let prompt := rag_prompt context question
      if stream then
        match deps.generate_stream prompt with
        | .error e => .error e
        | .ok chunks => .ok (.streamed chunks, st)
      else
        match deps.generate prompt with
        | .error e => .error e
        | .ok generated =>
          let tokens := deps.encode_len (prompt ++ generated)
          let answer := filter_response generated
          let answer := if fact_check answer context then answer
            else "[Fact-check failed: Please verify this information.]"
          let st1 := { st with cache := cache_set st.cache question answer }
          let st2 := track_performance st1 deps.elapsed tokens
          .ok (.fresh answer (docs.map (·.2)) tokens deps.elapsed, st2)

/-- `RAGProcessor.get_stats` output. -/
structure Stats where
  total_tokens : ℕ
  avg_response_time : ℚ
  cache_size : ℕ

/-- `RAGProcessor.get_stats`: `sum/len` of the recorded times guarded by
Python truthiness of the list, total token usage, and the cache size. -/
def get_stats (st : RAGState) : Stats :=
  { total_tokens := st.token_usage
  , avg_response_time :=
      if st.response_times = [] then 0
      else st.response_times.sum / (st.response_times.length : ℚ)
  , cache_size := st.cache.length }

/-- The answer cached by `_cache_set` is exactly what a later `_cache_get`
with the same raw query string returns. -/
lemma cache_get_set_self (c : List (String × String)) (q a : String) :
    cache_get (cache_set c q a) q = some a := by
  induction c with
  | nil => simp [cache_get, cache_set, List.lookup]
  | cons e tl ih =>
    by_cases he : e.1 = q
    · simp [cache_get, cache_set, List.lookup, he]
    · have he' : (e.1 == q) = false := by simpa using he
      have hq : (q == e.1) = false := by
        simp only [beq_eq_false_iff_ne]; exact fun h => he h.symm
      by_cases hany : tl.any (fun e => e.1 == q) = true
      · simp only [cache_set, List.any_cons, he', Bool.false_or, hany, if_true] at ih ⊢
        simp only [List.map_cons, he', if_false]
        simpa [cache_get, List.lookup, hq] using ih
      · simp only [cache_set, List.any_cons, he', Bool.false_or, hany, if_false] at ih ⊢
        simpa [cache_get, List.lookup, hq] using ih

/-- C2 (amended): the cache key is the raw question string — no trimming,
no case-folding, no session id.  If a call to `ask` produced a fresh
non-empty answer, then a second call with the byte-identical question
returns that answer as a cache hit with the state unchanged, for arbitrary
collaborators `deps'` — so neither retrieval nor generation is invoked. -/
theorem C2_cache_raw_key (deps deps' : AskDeps) (st st1 : RAGState)
    (q a : String) (srcs : List (List (String × String))) (tk : ℕ) (rt : ℚ)
    (h : ask deps st q false = .ok (.fresh a srcs tk rt, st1)) (ha : a ≠ "") :
    ask deps' st1 q false = .ok (.cachedHit a, st1) := by
  unfold ask at h
  by_cases hc : (cache_get st.cache q).getD "" ≠ ""
  · rw [if_pos hc] at h
    simp at h
  · rw [if_neg hc] at h
    cases hr : deps.retrieve q with
    | error e =>
      rw [hr] at h
      simp at h
    | ok docs =>
      rw [hr] at h
      dsimp only at h
      cases hg : deps.generate (rag_prompt
          (String.intercalate "\n" (docs.map (·.1))) q) with
      | error e =>
        rw [hg] at h
        simp at h
      | ok g =>
        rw [hg] at h
        simp only [fact_check, if_true, Bool.false_eq_true, if_false,
          Except.ok.injEq, Prod.mk.injEq, AskResult.fresh.injEq] at h
        obtain ⟨⟨hans, hsrcs, htk, hrt⟩, hst⟩ := h
        subst hst
        have hcget : cache_get
            (track_performance
              { st with cache := cache_set st.cache q (filter_response g) }
              deps.elapsed (deps.encode_len (rag_prompt
                (String.intercalate "\n" (docs.map (·.1))) q ++ g))).cache q
            = some (filter_response g) := by
          simp [track_performance, cache_get_set_self]
        unfold ask
        rw [hcget, hans]
        simp [ha]

/-- A concrete set of healthy collaborators: retrieval finds no documents,
generation answers `"eco"`, streaming yields two chunks, the tokenizer
always counts 7 tokens and each call takes 1 second. -/
def deps0 : AskDeps :=
  { retrieve := fun _ => .ok []
  , generate := fun _ => .ok "eco"
  , generate_stream := fun _ => .ok ["a", "b"]
  , encode_len := fun _ => 7
  , elapsed := 1 }

/-- Collaborators whose every remote call fails: used to demonstrate that a
cache hit consults none of them. -/
def deps_dead : AskDeps :=
  { retrieve := fun _ => .error "down"
  , generate := fun _ => .error "down"
  , generate_stream := fun _ => .error "down"
  , encode_len := fun _ => 0
  , elapsed := 0 }

/-- The freshly constructed `RAGProcessor` state. -/
def st0 : RAGState := ⟨[], [], 0⟩

/-- Modelled from the spec: the claimed question normalization (trim, then
case-fold).  The code of `RAGProcessor.ask` performs no such step. -/
def normalize_question (q : String) : String := py_lower (py_strip q)

/-- C2 (counterexample): `"Hello "` and `"hello"` are identical after the
claimed normalization, yet the second `ask` is a fresh call — it invokes
generation again (a second response time and 7 more tokens are recorded)
instead of returning the first call's cached answer. -/
theorem C2_counterexample :
    normalize_question "Hello " = normalize_question "hello" ∧
    ask deps0 st0 "Hello " false =
      .ok (.fresh "eco" [] 7 1, ⟨[("Hello ", "eco")], [1], 7⟩) ∧
    ask deps0 ⟨[("Hello ", "eco")], [1], 7⟩ "hello" false =
      .ok (.fresh "eco" [] 7 1, ⟨[("Hello ", "eco"), ("hello", "eco")], [1, 1], 14⟩) :=
  ⟨rfl, rfl, rfl⟩

/-- C2 (witness): after a fresh answer for `"Hello "`, asking the
byte-identical `"Hello "` again is served from the cache even when every
remote collaborator is down. -/
theorem C2_cache_raw_key_witness :
    ask deps_dead (⟨[("Hello ", "eco")], [1], 7⟩ : RAGState) "Hello " false =
      .ok (.cachedHit "eco", ⟨[("Hello ", "eco")], [1], 7⟩) :=
  C2_cache_raw_key deps0 deps_dead st0 _ "Hello " "eco" [] 7 1 rfl (by decide)

/-- Collaborators whose retrieval step raises: `RAGProcessor.ask` has no
try/except, so the exception propagates to the caller. -/
def deps_retrieve_down : AskDeps :=
  { retrieve := fun _ => .error "ConnectionError"
  , generate := fun _ => .ok "x"
  , generate_stream := fun _ => .ok []
  , encode_len := fun _ => 0
  , elapsed := 1 }

/-- C6 (counterexample): when retrieval fails, `RAGProcessor.ask` does not
return an explanatory `Answer` — the exception escapes to the caller. -/
theorem C6_counterexample :
    ask deps_retrieve_down st0 "best destinations" false = .error "ConnectionError" :=
  rfl

/-- C8 (amended): a streaming `ask` leaves the processor state exactly as it
was — no cache write, no memory append, no statistics — and never produces a
filtered, fact-checked `fresh` answer; the chunks are returned raw. -/
theorem C8_streaming_no_side_effects (deps : AskDeps) (st : RAGState) (q : String)
    (r : AskResult) (st' : RAGState)
    (h : ask deps st q true = .ok (r, st')) :
    st' = st ∧ ∀ a s tk rt, r ≠ AskResult.fresh a s tk rt := by
  unfold ask at h
  by_cases hc : (cache_get st.cache q).getD "" ≠ ""
  · rw [if_pos hc] at h
    simp only [Except.ok.injEq, Prod.mk.injEq] at h
    obtain ⟨hr, hst⟩ := h
    subst hr
    exact ⟨hst.symm, by intro a s tk rt hne; cases hne⟩
  · rw [if_neg hc] at h
    cases hr : deps.retrieve q with
    | error e =>
      rw [hr] at h
      simp at h
    | ok docs =>
      rw [hr] at h
      dsimp only at h
      rw [if_pos rfl] at h
      cases hgs : deps.generate_stream (rag_prompt
          (String.intercalate "\n" (docs.map (·.1))) q) with
      | error e =>
        rw [hgs] at h
        simp at h
      | ok chunks =>
        rw [hgs] at h
        simp only [Except.ok.injEq, Prod.mk.injEq] at h
        obtain ⟨hr, hst⟩ := h
        subst hr
        exact ⟨hst.symm, by intro a s tk rt hne; cases hne⟩

/-- A non-empty processor state used to exercise the streaming path. -/
def stW : RAGState := ⟨[("k", "v")], [2], 5⟩

/-- C8 (witness): a concrete streaming call returns the two chunks and the
state is untouched. -/
theorem C8_streaming_witness :
    ask deps0 stW "qq" true = .ok (.streamed ["a", "b"], stW) ∧ stW = stW :=
  ⟨rfl, (C8_streaming_no_side_effects deps0 stW "qq" (.streamed ["a", "b"]) stW rfl).1⟩

/-- C8 (counterexample): draining the streamed sequence performs none of the
retroactive steps: the state after the streaming call still has an empty
cache and no recorded statistics, while the same call in non-streaming mode
writes both. -/
theorem C8_counterexample :
    ask deps0 st0 "qq" true = .ok (.streamed ["a", "b"], st0) ∧
    st0.cache = [] ∧ st0.response_times = [] ∧ st0.token_usage = 0 ∧
    ask deps0 st0 "qq" false =
      .ok (.fresh "eco" [] 7 1, ⟨[("qq", "eco")], [1], 7⟩) :=
  ⟨rfl, rfl, rfl, rfl, rfl⟩

/-- Folding `_track_performance` over a run of recordings appends all the
elapsed times and accumulates all the token counts. -/
lemma track_performance_foldl (records : List (ℚ × ℕ)) (st : RAGState) :
    records.foldl (fun s p => track_performance s p.1 p.2) st =
      ⟨st.cache, st.response_times ++ records.map Prod.fst,
       st.token_usage + (records.map Prod.snd).sum⟩ := by
  induction records generalizing st with
  | nil => simp
  | cons p tl ih =>
    rw [List.foldl_cons, ih]
    simp [track_performance, List.append_assoc, Nat.add_assoc]

/-- C10 (confirmed): `get_stats` is total — with no recorded responses the
average response time is 0 rather than a division by zero; otherwise the
average is the arithmetic mean of all recorded elapsed times, and the total
token count is the sum of all recorded token counts. -/
theorem C10_stats_total (cache : List (String × String)) (records : List (ℚ × ℕ)) :
    (get_stats (records.foldl (fun s p => track_performance s p.1 p.2)
        ⟨cache, [], 0⟩)).total_tokens = (records.map Prod.snd).sum ∧
    (records = [] →
      (get_stats (records.foldl (fun s p => track_performance s p.1 p.2)
        ⟨cache, [], 0⟩)).avg_response_time = 0) ∧
    (records ≠ [] →
      (get_stats (records.foldl (fun s p => track_performance s p.1 p.2)
        ⟨cache, [], 0⟩)).avg_response_time =
      (records.map Prod.fst).sum / (records.length : ℚ)) := by
  rw [track_performance_foldl]
  refine ⟨by simp [get_stats], ?_, ?_⟩
  · intro h
    subst h
    simp [get_stats]
  · intro h
    have hmap : records.map Prod.fst ≠ [] := by
      simpa using h
    simp [get_stats, hmap]

/-- C10 (witness): two recordings of (2 s, 3 tokens) and (4 s, 5 tokens)
give total 8 tokens and average 3 s. -/
theorem C10_stats_total_witness :
    ([((2 : ℚ), (3 : ℕ)), (4, 5)] ≠ []) ∧
    (get_stats ([((2 : ℚ), (3 : ℕ)), (4, 5)].foldl
        (fun s p => track_performance s p.1 p.2) ⟨[], [], 0⟩)).total_tokens = 8 ∧
    (get_stats ([((2 : ℚ), (3 : ℕ)), (4, 5)].foldl
        (fun s p => track_performance s p.1 p.2) ⟨[], [], 0⟩)).avg_response_time = 3 := by
  refine ⟨by simp, ?_, ?_⟩
  · have h := (C10_stats_total [] [((2 : ℚ), (3 : ℕ)), (4, 5)]).1
    simpa using h
  · have h := (C10_stats_total [] [((2 : ℚ), (3 : ℕ)), (4, 5)]).2.2 (by simp)
    rw [h]
    norm_num

/-! ## Conversation memory

`RAGProcessor.__init__` (src/rag_system/rag_pipeline.py line 24) constructs
`langchain.memory.ConversationBufferMemory`, an unbounded buffer;
`SustainableTravelRAGService.__init__`
(src/services/rasa/services/langchain_service.py lines 29-33) constructs
`langchain.memory.ConversationBufferWindowMemory(k=10)`, whose loaded window
is the last `k` saved turns.  Both library classes are modelled over the
list of saved turns (a turn being one human/assistant exchange appended by
`save_context`). -/

/-- One conversation turn: the human input and the assistant output. -/
abbrev Turn := String × String

/-- `save_context`: append one turn to the stored history. -/
def save_context (turns : List Turn) (t : Turn) : List Turn := turns ++ [t]

/-- Appending a whole sequence of turns. -/
def save_all (turns : List Turn) (ts : List Turn) : List Turn :=
  ts.foldl save_context turns

/-- Modelled from the langchain semantics of `ConversationBufferMemory`
(used by `RAGProcessor`): the loaded buffer is every stored turn. -/
def buffer_memory_load (turns : List Turn) : List Turn := turns

/-- Modelled from the langchain semantics of
`ConversationBufferWindowMemory k` (used by `SustainableTravelRAGService`
with `k = 10`): the loaded window is the last `k` stored turns. -/
def window_memory_load (k : ℕ) (turns : List Turn) : List Turn :=
  turns.drop (turns.length - k)

/-- `save_all` starting from the empty history stores exactly the appended
turns in order. -/
lemma save_all_nil (ts : List Turn) : save_all [] ts = ts := by
  have h : ∀ (acc : List Turn), save_all acc ts = acc ++ ts := by
    induction ts with
    | nil => intro acc; simp [save_all]
    | cons t tl ih =>
      intro acc
      simp only [save_all, List.foldl_cons] at ih ⊢
      rw [ih (save_context acc t)]
      simp [save_context]
  simpa using h []

/-- C4 (amended): for the windowed memory (`ConversationBufferWindowMemory`,
`k = 10` in `SustainableTravelRAGService`), after any sequence of appends the
loaded window is exactly the `min k n` most recent turns in order — in
particular exactly `k` of them once more than `k` turns were appended, the
oldest evicted first.  The claim fails for `RAGProcessor`, whose
`ConversationBufferMemory` is unbounded (see the counterexample). -/
theorem C4_window_bounded (k : ℕ) (ts : List Turn) :
    window_memory_load k (save_all [] ts) = ts.drop (ts.length - k) ∧
    (window_memory_load k (save_all [] ts)).length = min k ts.length ∧
    (k < ts.length → (window_memory_load k (save_all [] ts)).length = k) := by
  rw [save_all_nil]
  refine ⟨rfl, ?_, ?_⟩
  · simp [window_memory_load, List.length_drop]
    omega
  · intro h
    simp [window_memory_load, List.length_drop]
    omega

/-- C4 (witness): with `k = 2`, appending three turns leaves exactly the
last two in the window. -/
theorem C4_window_bounded_witness :
    window_memory_load 2 (save_all [] [("a", "1"), ("b", "2"), ("c", "3")]) =
      [("b", "2"), ("c", "3")] ∧
    (2 : ℕ) < 3 ∧
    (window_memory_load 2 (save_all [] [("a", "1"), ("b", "2"), ("c", "3")])).length = 2 := by
  refine ⟨?_, by decide, (C4_window_bounded 2 [("a", "1"), ("b", "2"), ("c", "3")]).2.2 (by decide)⟩
  have h := (C4_window_bounded 2 [("a", "1"), ("b", "2"), ("c", "3")]).1
  rw [h]
  decide

/-- Eleven distinct turns. -/
def eleven_turns : List Turn :=
  (List.range 11).map (fun i => (toString i, "a"))

/-- C4 (counterexample): the unbounded `ConversationBufferMemory` of
`RAGProcessor` holds all 11 turns after 11 appends — more than the claimed
bound of `k = 10`. -/
theorem C4_counterexample :
    (buffer_memory_load (save_all [] eleven_turns)).length = 11 ∧
    ¬ (buffer_memory_load (save_all [] eleven_turns)).length ≤ 10 := by
  constructor <;> decide

/-! ## PineconeManager.query (src/rag_system/vector_store.py, lines 43-58)

The remote index is handed `vector`, `top_k` and the metadata filter and
returns a list of matches (its contract: at most `top_k` of them); the code
then filters the matches locally by the similarity threshold and re-sorts
them by score descending with Python's stable `list.sort`.  The remote
response is a parameter; the stable sort is modelled by a stable insertion
sort (any two stable sorts under the same key agree). -/

/-- One Pinecone match / query result: `{id, score, metadata}`. -/
structure QMatch where
  id : String
  score : ℚ
  metadata : List (String × String)

/-- Stable descending insertion: place `m` after every element whose score
is at least `m.score` (so earlier elements of equal score stay first). -/
def insert_desc (m : QMatch) : List QMatch → List QMatch
  | [] => [m]
  | x :: xs => if x.score < m.score then m :: x :: xs else x :: insert_desc m xs

/-- `matches.sort(key=lambda x: x.score, reverse=True)`: a stable sort by
descending score. -/
def sort_by_score_desc (l : List QMatch) : List QMatch :=
  l.foldl (fun acc m => insert_desc m acc) []

/-- `PineconeManager.query` after the remote call: keep matches with
`score >= similarity_threshold`, then sort by score descending. -/
def query (remote_matches : List QMatch) (similarity_threshold : ℚ) : List QMatch :=
  sort_by_score_desc (remote_matches.filter (fun m => similarity_threshold ≤ m.score))

lemma insert_desc_length (m : QMatch) (l : List QMatch) :
    (insert_desc m l).length = l.length + 1 := by
  induction l with
  | nil => rfl
  | cons x xs ih =>
    by_cases h : x.score < m.score <;> simp [insert_desc, h, ih]

lemma sort_by_score_desc_length (l : List QMatch) :
    (sort_by_score_desc l).length = l.length := by
  suffices h : ∀ acc : List QMatch,
      (l.foldl (fun acc m => insert_desc m acc) acc).length = acc.length + l.length by
    simpa [sort_by_score_desc] using h []
  induction l with
  | nil => intro acc; simp
  | cons x xs ih =>
    intro acc
    rw [List.foldl_cons, ih (insert_desc x acc), insert_desc_length]
    simp only [List.length_cons]
    omega

lemma insert_desc_mem (m x : QMatch) (l : List QMatch) :
    x ∈ insert_desc m l ↔ x = m ∨ x ∈ l := by
  induction l with
  | nil => simp [insert_desc]
  | cons y ys ih =>
    by_cases h : y.score < m.score
    · simp [insert_desc, h]
    · simp [insert_desc, h, ih]
      tauto

lemma sort_by_score_desc_mem (x : QMatch) (l : List QMatch) :
    x ∈ sort_by_score_desc l ↔ x ∈ l := by
  suffices h : ∀ acc : List QMatch,
      (x ∈ l.foldl (fun acc m => insert_desc m acc) acc ↔ x ∈ acc ∨ x ∈ l) by
    simpa [sort_by_score_desc] using h []
  induction l with
  | nil => intro acc; simp
  | cons y ys ih =>
    intro acc
    rw [List.foldl_cons, ih (insert_desc y acc)]
    rw [insert_desc_mem]
    simp
    tauto

lemma insert_desc_pairwise (m : QMatch) (l : List QMatch)
    (h : l.Pairwise (fun a b => b.score ≤ a.score)) :
    (insert_desc m l).Pairwise (fun a b => b.score ≤ a.score) := by
  induction l with
  | nil => simp [insert_desc]
  | cons x xs ih =>
    rcases List.pairwise_cons.mp h with ⟨hx, hxs⟩
    by_cases hc : x.score < m.score
    · simp only [insert_desc, hc, if_true]
      refine List.pairwise_cons.mpr ⟨?_, h⟩
      intro y hy
      rcases List.mem_cons.mp hy with rfl | hy
      · exact hc.le
      · exact (hx y hy).trans hc.le
    · simp only [insert_desc, hc, if_false]
      refine List.pairwise_cons.mpr ⟨?_, ih hxs⟩
      intro y hy
      rcases (insert_desc_mem m y xs).mp hy with rfl | hy
      · exact not_lt.mp hc
      · exact hx y hy

lemma sort_by_score_desc_pairwise (l : List QMatch) :
    (sort_by_score_desc l).Pairwise (fun a b => b.score ≤ a.score) := by
  suffices h : ∀ acc : List QMatch, acc.Pairwise (fun a b => b.score ≤ a.score) →
      (l.foldl (fun acc m => insert_desc m acc) acc).Pairwise
        (fun a b => b.score ≤ a.score) by
    simpa [sort_by_score_desc] using h [] (by simp)
  induction l with
  | nil => intro acc hacc; simpa using hacc
  | cons x xs ih =>
    intro acc hacc
    rw [List.foldl_cons]
    exact ih _ (insert_desc_pairwise x acc hacc)

/-- C3 (amended): given the remote store's contract of returning at most
`topK` matches, `query` returns at most `topK` results, every returned score
is at least the similarity threshold, and the results are sorted by score
descending.  Equal scores keep the remote store's order (the sort is
stable), not ascending-id order; the metadata filter is forwarded to the
remote store rather than applied locally. -/
theorem C3_query_contract (remote : List QMatch) (topK : ℕ) (thr : ℚ)
    (h : remote.length ≤ topK) :
    (query remote thr).length ≤ topK ∧
    (∀ m ∈ query remote thr, thr ≤ m.score) ∧
    (query remote thr).Pairwise (fun a b => b.score ≤ a.score) := by
  refine ⟨?_, ?_, sort_by_score_desc_pairwise _⟩
  · rw [query, sort_by_score_desc_length]
    exact le_trans (List.length_filter_le _ _) h
  · intro m hm
    have hmem : m ∈ remote.filter (fun m => decide (thr ≤ m.score)) :=
      (sort_by_score_desc_mem m _).mp hm
    exact of_decide_eq_true (List.mem_filter.mp hmem).2

/-- C3 (witness): a two-match remote response with threshold 1 keeps only
the score-1 match, within the `topK = 2` bound. -/
theorem C3_query_contract_witness :
    ([⟨"a", 0, []⟩, ⟨"b", 1, []⟩] : List QMatch).length ≤ 2 ∧
    query [⟨"a", 0, []⟩, ⟨"b", 1, []⟩] 1 = [⟨"b", 1, []⟩] ∧
    ((query [⟨"a", 0, []⟩, ⟨"b", 1, []⟩] 1).length ≤ 2 ∧
      (∀ m ∈ query [⟨"a", 0, []⟩, ⟨"b", 1, []⟩] 1, (1 : ℚ) ≤ m.score) ∧
      (query [⟨"a", 0, []⟩, ⟨"b", 1, []⟩] 1).Pairwise
        (fun a b => b.score ≤ a.score)) := by
  refine ⟨by simp, by rfl, C3_query_contract _ 2 1 (by simp)⟩

/-- A remote response with two equal-score matches whose ids arrive in
descending order. -/
def tie_matches : List QMatch := [⟨"b", 1, []⟩, ⟨"a", 1, []⟩]

/-- C3 (counterexample): with equal scores the code's stable sort keeps the
remote order `b` before `a`, so equal scores are not ordered by ascending
id as claimed. -/
theorem C3_counterexample :
    (query tie_matches 0).map QMatch.id = ["b", "a"] ∧
    (query tie_matches 0).map QMatch.score = [1, 1] ∧
    ¬ ("b" ≤ "a") := by
  refine ⟨by rfl, by rfl, ?_⟩
  rw [String.le_iff_toList_le]
  intro hle
  have : ¬ ("a".toList < "b".toList) := not_lt.mpr hle
  exact this (by decide)

/-! ## PineconeManager.upsert_vectors (src/rag_system/vector_store.py, 30-41)

```python
for i in range(0, len(vectors), batch_size):
    batch = vectors[i:i+batch_size]
    ...
    self.index.upsert(vectors=to_upsert)
```

The slicing loop is modelled by `list_chunks`; the remote `index.upsert` may
raise, which is modelled by a failure schedule `fail : ℕ → Bool` indexed by
the submission counter.  `upsert_go` returns the outcome, the number of
submissions performed, and the entries committed on the remote side.  The
loop has no try/except and no retry: a raising batch aborts the loop. -/

/-- The batches `vectors[i:i+batch_size]` for `i = 0, bs, 2·bs, …`. -/
def list_chunks (bs : ℕ) : List α → List (List α)
  | [] => []
  | x :: xs => (x :: xs).take bs :: list_chunks bs (xs.drop (bs - 1))
termination_by l => l.length
decreasing_by
  simp only [List.length_drop, List.length_cons]
  omega

/-- The submission loop: submit each batch once, in order; a failing
submission aborts with the already-committed prefix intact. -/
def upsert_go (fail : ℕ → Bool) :
    List (List α) → ℕ → List α → Except Unit Unit × ℕ × List α
  | [], n, acc => (.ok (), n, acc)
  | b :: rest, n, acc =>
    if fail n then (.error (), n + 1, acc)
    else upsert_go fail rest (n + 1) (acc ++ b)

/-- `PineconeManager.upsert_vectors`: chunk, then submit sequentially. -/
def upsert_vectors (fail : ℕ → Bool) (vectors : List α) (batch_size : ℕ) :
    Except Unit Unit × ℕ × List α :=
  upsert_go fail (list_chunks batch_size vectors) 0 []

/-- Every batch produced by the slicing loop has at most `bs` entries. -/
lemma list_chunks_sizes (bs : ℕ) :
    ∀ (n : ℕ) (l : List α), l.length ≤ n → ∀ c ∈ list_chunks bs l, c.length ≤ bs := by
  intro n
  induction n with
  | zero =>
    intro l hl c hc
    have : l = [] := List.eq_nil_of_length_eq_zero (Nat.le_zero.mp hl)
    subst this
    simp [list_chunks] at hc
  | succ n ih =>
    intro l hl c hc
    cases l with
    | nil => simp [list_chunks] at hc
    | cons x xs =>
      simp only [list_chunks] at hc
      rcases List.mem_cons.mp hc with rfl | hc
      · simpa using List.length_take_le bs (x :: xs)
      · refine ih (xs.drop (bs - 1)) ?_ c hc
        simp only [List.length_drop]
        simp only [List.length_cons] at hl
        omega

/-- The slicing loop partitions the input: concatenating the batches gives
back the input list, provided the batch size is positive. -/
lemma list_chunks_join (bs : ℕ) (hbs : 1 ≤ bs) :
    ∀ (n : ℕ) (l : List α), l.length ≤ n → (list_chunks bs l).flatten = l := by
  intro n
  induction n with
  | zero =>
    intro l hl
    have : l = [] := List.eq_nil_of_length_eq_zero (Nat.le_zero.mp hl)
    subst this
    simp [list_chunks]
  | succ n ih =>
    intro l hl
    cases l with
    | nil => simp [list_chunks]
    | cons x xs =>
      obtain ⟨k, rfl⟩ : ∃ k, bs = k + 1 := ⟨bs - 1, by omega⟩
      simp only [list_chunks, List.flatten_cons]
      have hrec : (list_chunks (k + 1) (xs.drop (k + 1 - 1))).flatten = xs.drop (k + 1 - 1) := by
        refine ih _ ?_
        simp only [List.length_drop]
        simp only [List.length_cons] at hl
        omega
      rw [hrec]
      simp only [Nat.add_sub_cancel, List.take_cons_succ]
      rw [List.cons_append, List.take_append_drop]

/-- If no submission fails, the loop submits every batch in order and
commits all of them. -/
lemma upsert_go_ok (fail : ℕ → Bool) (batches : List (List α)) :
    ∀ (n : ℕ) (acc : List α), (∀ i < batches.length, fail (n + i) = false) →
      upsert_go fail batches n acc = (.ok (), n + batches.length, acc ++ batches.flatten) := by
  induction batches with
  | nil => intro n acc _; simp [upsert_go]
  | cons b rest ih =>
    intro n acc h
    have h0 : fail n = false := by simpa using h 0 (by simp)
    simp only [upsert_go, h0, Bool.false_eq_true, if_false]
    rw [ih (n + 1) (acc ++ b) (fun i hi => by
      have := h (i + 1) (by simpa using Nat.succ_lt_succ hi)
      simpa [Nat.add_assoc, Nat.add_comm, Nat.add_left_comm] using this)]
    simp only [Prod.mk.injEq, List.flatten_cons, List.length_cons]
    refine ⟨trivial, by omega, by simp [List.append_assoc]⟩

/-- The first failing submission aborts the loop: the failing batch is
submitted exactly once, later batches are never submitted, and only the
batches before the failure are committed. -/
lemma upsert_go_fail (fail : ℕ → Bool) (batches : List (List α)) :
    ∀ (n : ℕ) (acc : List α) (i : ℕ), i < batches.length → fail (n + i) = true →
      (∀ j < i, fail (n + j) = false) →
      upsert_go fail batches n acc = (.error (), n + i + 1, acc ++ (batches.take i).flatten) := by
  induction batches with
  | nil => intro n acc i hi; simp at hi
  | cons b rest ih =>
    intro n acc i hi hfi hprev
    cases i with
    | zero =>
      have h0 : fail n = true := by simpa using hfi
      simp [upsert_go, h0]
    | succ i' =>
      have h0 : fail n = false := by simpa using hprev 0 (Nat.succ_pos _)
      simp only [upsert_go, h0, Bool.false_eq_true, if_false]
      rw [ih (n + 1) (acc ++ b) i'
        (by simpa using Nat.lt_of_succ_lt_succ hi)
        (by simpa [Nat.add_assoc, Nat.add_comm, Nat.add_left_comm] using hfi)
        (fun j hj => by
          have := hprev (j + 1) (Nat.succ_lt_succ hj)
          simpa [Nat.add_assoc, Nat.add_comm, Nat.add_left_comm] using this)]
      simp only [Prod.mk.injEq, List.take_succ_cons, List.flatten_cons]
      refine ⟨trivial, by omega, by simp [List.append_assoc]⟩

/-- C5 (amended): `upsert_vectors` splits the entries into consecutive
batches of at most `batchSize`, submitted sequentially in order; if no
submission fails, all entries are committed.  There is no retry and no
backoff: the first failing batch is submitted exactly once, the exception
aborts the loop (later batches are never submitted), and exactly the
batches before the failure remain committed. -/
theorem C5_upsert_no_retry (fail : ℕ → Bool) (vectors : List α) (bs : ℕ)
    (hbs : 1 ≤ bs) :
    (∀ c ∈ list_chunks bs vectors, c.length ≤ bs) ∧
    (list_chunks bs vectors).flatten = vectors ∧
    ((∀ i < (list_chunks bs vectors).length, fail i = false) →
      upsert_vectors fail vectors bs =
        (.ok (), (list_chunks bs vectors).length, vectors)) ∧
    (∀ i < (list_chunks bs vectors).length, fail i = true →
      (∀ j < i, fail j = false) →
      upsert_vectors fail vectors bs =
        (.error (), i + 1, ((list_chunks bs vectors).take i).flatten)) := by
  have hjoin := list_chunks_join bs hbs vectors.length vectors le_rfl
  refine ⟨list_chunks_sizes bs vectors.length vectors le_rfl, hjoin, ?_, ?_⟩
  · intro h
    have := upsert_go_ok fail (list_chunks bs vectors) 0 [] (by simpa using h)
    simpa [upsert_vectors, hjoin] using this
  · intro i hi hfi hprev
    have := upsert_go_fail fail (list_chunks bs vectors) 0 [] i hi
      (by simpa using hfi) (by simpa using hprev)
    simpa [upsert_vectors] using this

/-- C5 (witness): five entries with batch size 2 form batches
`[1,2] [3,4] [5]`; a schedule failing on the second submission commits the
first batch, performs two submissions, and reports failure. -/
theorem C5_upsert_no_retry_witness :
    (1 : ℕ) ≤ 2 ∧
    upsert_vectors (fun n => n == 1) [(1 : ℕ), 2, 3, 4, 5] 2 =
      (.error (), 2, [1, 2]) := by
  refine ⟨by norm_num, ?_⟩
  have hch : list_chunks 2 [(1 : ℕ), 2, 3, 4, 5] = [[1, 2], [3, 4], [5]] := by
    simp [list_chunks]
  have h := (C5_upsert_no_retry (fun n => n == 1) [(1 : ℕ), 2, 3, 4, 5] 2
      (by norm_num)).2.2.2 1 (by rw [hch]; norm_num) (by decide)
      (fun j hj => by interval_cases j <;> decide)
  rw [h, hch]
  simp

/-- C5 (counterexample): a transient failure — the very first submission
fails, a second attempt would succeed (`fail 1 = false`) — is not retried:
the code performs exactly one submission, commits nothing, never submits
the second batch, and the exception propagates.  Under the claim the batch
would have been retried with backoff and the upsert would succeed. -/
theorem C5_counterexample :
    upsert_vectors (fun n => n == 0) [(1 : ℕ), 2, 3, 4] 2 =
      (.error (), 1, []) ∧
    ((fun n : ℕ => n == 0) 1) = false := by
  have hch : list_chunks 2 [(1 : ℕ), 2, 3, 4] = [[1, 2], [3, 4]] := by
    simp [list_chunks]
  refine ⟨?_, rfl⟩
  rw [upsert_vectors, hch]
  simp [upsert_go]

/-! ## KnowledgeBaseBuilder.validate_data
(src/rag_system/knowledge_base_builder.py, lines 40-51)

Each line of the knowledge-base file is a JSON record; after parsing it has
an optional `text` field and an optional metadata object, modelled by the
list of its keys.  The method runs a chain of `assert` statements per
record, so the first missing field raises `AssertionError` (carrying the
shown message) and aborts the whole loop. -/

/-- A parsed knowledge-base record: `text` field (if present) and the keys
of its `metadata` object (if present). -/
structure RawDoc where
  text : Option String
  metadata : Option (List String)

/-- The assertion chain of `validate_data` for record `i`, in source
order: non-empty `text`, then `metadata`, then the `location`, `category`
and `sustainability_score` keys. -/
def check_doc (i : ℕ) (d : RawDoc) : Except String Unit :=
  match d.text with
  | none => .error ("Missing text in doc " ++ toString i)
  | some t =>
    if t = "" then .error ("Missing text in doc " ++ toString i)
    else
      match d.metadata with
      | none => .error ("Missing metadata in doc " ++ toString i)
      | some keys =>
        if ¬ keys.contains "location" then
          .error ("Missing location in metadata " ++ toString i)
        else if ¬ keys.contains "category" then
          .error ("Missing category in metadata " ++ toString i)
        else if ¬ keys.contains "sustainability_score" then
          .error ("Missing sustainability_score in metadata " ++ toString i)
        else .ok ()

/-- The enumeration loop of `validate_data`, starting at record index `i`. -/
def validate_from (i : ℕ) : List RawDoc → Except String Unit
  | [] => .ok ()
  | d :: rest =>
    match check_doc i d with
    | .error msg => .error msg
    | .ok () => validate_from (i + 1) rest

/-- `KnowledgeBaseBuilder.validate_data` over the parsed records. -/
def validate_data (docs : List RawDoc) : Except String Unit := validate_from 0 docs

/-- The loop relative to an arbitrary starting index: all-valid prefixes
succeed, and the first invalid record aborts with its message, regardless of
everything after it. -/
lemma validate_from_spec (docs : List RawDoc) :
    ∀ (n : ℕ),
      ((∀ j (hj : j < docs.length), check_doc (n + j) (docs.get ⟨j, hj⟩) = .ok ()) →
        validate_from n docs = .ok ()) ∧
      (∀ i (hi : i < docs.length) (msg : String),
        (∀ j (hj : j < i), check_doc (n + j) (docs.get ⟨j, hj.trans hi⟩) = .ok ()) →
        check_doc (n + i) (docs.get ⟨i, hi⟩) = .error msg →
        validate_from n docs = .error msg) := by
  induction docs with
  | nil =>
    intro n
    refine ⟨fun _ => rfl, ?_⟩
    intro i hi
    simp at hi
  | cons d rest ih =>
    intro n
    constructor
    · intro h
      have h0 : check_doc n d = .ok () := by
        simpa using h 0 (by simp)
      simp only [validate_from, h0]
      exact (ih (n + 1)).1 (fun j hj => by
        have := h (j + 1) (by simpa using Nat.succ_lt_succ hj)
        simpa [Nat.add_assoc, Nat.add_comm, Nat.add_left_comm] using this)
    · intro i hi msg hprev hbad
      cases i with
      | zero =>
        have h0 : check_doc n d = .error msg := by simpa using hbad
        simp [validate_from, h0]
      | succ i' =>
        have h0 : check_doc n d = .ok () := by
          simpa using hprev 0 (Nat.succ_pos _)
        simp only [validate_from, h0]
        exact (ih (n + 1)).2 i' (by simpa using Nat.lt_of_succ_lt_succ hi) msg
          (fun j hj => by
            have := hprev (j + 1) (Nat.succ_lt_succ hj)
            simpa [Nat.add_assoc, Nat.add_comm, Nat.add_left_comm] using this)
          (by simpa [Nat.add_assoc, Nat.add_comm, Nat.add_left_comm] using hbad)

/-- C9 (amended): `validate_data` accepts a batch iff every record passes
its assertion chain; the first record missing a required field makes the
whole validation raise `AssertionError` with that record's message —
the batch is aborted at that point, nothing is skipped and nothing is
counted. -/
theorem C9_validation_fatal (docs : List RawDoc) :
    ((∀ j (hj : j < docs.length), check_doc j (docs.get ⟨j, hj⟩) = .ok ()) →
      validate_data docs = .ok ()) ∧
    (∀ i (hi : i < docs.length) (msg : String),
      (∀ j (hj : j < i), check_doc j (docs.get ⟨j, hj.trans hi⟩) = .ok ()) →
      check_doc i (docs.get ⟨i, hi⟩) = .error msg →
      validate_data docs = .error msg) := by
  have h := validate_from_spec docs 0
  constructor
  · intro hall
    exact h.1 (fun j hj => by simpa using hall j hj)
  · intro i hi msg hprev hbad
    exact h.2 i hi msg (fun j hj => by simpa using hprev j hj)
      (by simpa using hbad)

/-- A fully valid record. -/
def good_doc : RawDoc :=
  ⟨some "Eco travel tips", some ["location", "category", "sustainability_score"]⟩

/-- A record whose metadata lacks the `category` key. -/
def bad_doc : RawDoc :=
  ⟨some "Green hotels", some ["location", "sustainability_score"]⟩

/-- C9 (witness): a batch whose second record is missing `category` fails
with that record's assertion message. -/
theorem C9_validation_fatal_witness :
    check_doc 0 good_doc = .ok () ∧
    check_doc 1 bad_doc = .error "Missing category in metadata 1" ∧
    validate_data [good_doc, bad_doc] = .error "Missing category in metadata 1" := by
  refine ⟨rfl, rfl, ?_⟩
  exact (C9_validation_fatal [good_doc, bad_doc]).2 1 (by decide) _
    (fun j hj => by
      have hj0 : j = 0 := by omega
      subst hj0
      rfl)
    rfl

/-- C9 (counterexample): with a batch `[good, bad, good]` where the middle
record lacks `category`, validation is fatal: it raises instead of skipping
the record, and the third record is never examined (any suffix after the
failing record gives the same outcome). -/
theorem C9_counterexample :
    validate_data [good_doc, bad_doc, good_doc] =
      .error "Missing category in metadata 1" ∧
    validate_data [good_doc, bad_doc] =
      .error "Missing category in metadata 1" ∧
    validate_data [good_doc, bad_doc, good_doc] ≠ .ok () := by
  have h1 : validate_data [good_doc, bad_doc, good_doc] =
      .error "Missing category in metadata 1" := rfl
  refine ⟨h1, rfl, ?_⟩
  rw [h1]
  simp

/-! ## SimpleSustainableTravelRAG (src/langchain_service/langchain_pipeline.py)
and SustainableTravelRAGService.get_travel_advice
(src/services/rasa/services/langchain_service.py, lines 276-305)

Both `get_travel_advice` entry points wrap their body in try/except and
return a dictionary in every case; the fallible inner step (similarity
search resp. the QA chain call) is a parameter returning `Except`, and the
except-branch is the explicit error case of a match. -/

/-- The answer dictionary of both `get_travel_advice` variants. -/
structure AdviceResult where
  answer : String
  sources : List (List (String × String))
  confidence : ℚ

/-- Python `any(w in ql for w in ws)`. -/
def kw_any (ql : String) (ws : List String) : Bool :=
  ws.any (fun w => str_contains ql w)

/-- Destination rule of `_fallback_response`. -/
def fallback_dest_text : String :=
  "Top sustainable destinations include Costa Rica (renewable energy leader), Iceland (geothermal power), New Zealand (conservation focus), and countries with strong environmental policies."

/-- Transport rule of `_fallback_response`. -/
def fallback_transport_text : String :=
  "For sustainable transport: trains reduce emissions by 75% vs flights, choose direct flights, use public transport, walk/cycle locally, and consider electric rentals."

/-- Accommodation rule of `_fallback_response`. -/
def fallback_accom_text : String :=
  "Choose eco-certified accommodations with Green Key or LEED certification, renewable energy, water conservation, and local sourcing."

/-- Generic default rule of `_fallback_response`. -/
def fallback_generic_text : String :=
  "For sustainable travel: minimize flights, use public transport, support local businesses, choose eco-certified accommodations, pack light, and respect environments."

/-- `SimpleSustainableTravelRAG._fallback_response`: keyword-matched canned
answer, confidence 0.5, no sources.  The rule table has exactly three
keyword categories (destination / transport / accommodation) plus a generic
default. -/
def fallback_response (question : String) : AdviceResult :=
  let ql := py_lower question
  { answer :=
      if kw_any ql ["destination", "where", "place"] then fallback_dest_text
      else if kw_any ql ["transport", "flight", "travel"] then fallback_transport_text
      else if kw_any ql ["accommodation", "hotel"] then fallback_accom_text
      else fallback_generic_text
  , sources := []
  , confidence := 1/2 }

/-- Canned Costa Rica answer of `_generate_response`. -/
def gr_costa_text : String :=
  "Costa Rica is an excellent choice for sustainable travel! It runs on 99% renewable energy and has 25% of its land protected as national parks. Stay in eco-lodges, use public transport, and participate in conservation tours."

/-- Canned Iceland answer of `_generate_response`. -/
def gr_iceland_text : String :=
  "Iceland is perfect for eco-conscious travelers! The country operates on 100% renewable energy from geothermal sources. Follow the Icelandic Pledge, stay on marked trails, and use geothermal facilities."

/-- Canned transport answer of `_generate_response`. -/
def gr_transport_text : String :=
  "For sustainable transportation: trains reduce emissions by 75% compared to flying. Choose direct flights when flying is necessary, use public transport at your destination, and consider electric vehicle rentals. For trips under 1000km, ground transport is more sustainable."

/-- Canned accommodation answer of `_generate_response`. -/
def gr_accom_text : String :=
  "Choose sustainable accommodations with eco-certifications like Green Key or LEED. Look for properties with renewable energy, water conservation, waste reduction, and local sourcing. Eco-lodges, farm stays, and sustainable hostels are great options."

/-- Canned budget answer of `_generate_response`. -/
def gr_budget_text : String :=
  "Budget sustainable travel tips: travel during shoulder seasons for 30-50% savings, use public transportation, stay in eco-hostels, eat at local restaurants, and choose free outdoor activities like hiking."

/-- Canned carbon answer of `_generate_response`. -/
def gr_carbon_text : String :=
  "Transportation emissions by mode per km: flights 255g CO2, cars 120g CO2, trains 35g CO2, buses 25g CO2. Reduce your footprint by choosing direct flights, packing light, staying longer in destinations, and offsetting through verified programs."

/-- `SimpleSustainableTravelRAG._generate_response`: context-aware canned
answers; a destination question whose context names neither Costa Rica nor
Iceland falls through to the default, which truncates the context to 200
characters. -/
def generate_response (question context : String) : String :=
  let ql := py_lower question
  let deflt :=
    if 200 < context.length then
      "Based on sustainable travel best practices: " ++ context.take 200 ++ "..."
    else context
  if str_contains ql "destination" || str_contains ql "where" then
    if str_contains (py_lower context) "costa rica" then gr_costa_text
    else if str_contains (py_lower context) "iceland" then gr_iceland_text
    else deflt
  else if kw_any ql ["transport", "flight", "train"] then gr_transport_text
  else if kw_any ql ["accommodation", "hotel", "stay"] then gr_accom_text
  else if kw_any ql ["budget", "cheap", "affordable"] then gr_budget_text
  else if kw_any ql ["carbon", "footprint", "emissions"] then gr_carbon_text
  else deflt

/-- `SimpleSustainableTravelRAG.get_travel_advice`: `search` is
`self.vectorstore.similarity_search` (absent when the vector store failed to
initialise, fallible at call time); every failure path resolves to
`_fallback_response`. -/
def simple_get_travel_advice
    (search : Option (String → ℕ → Except String (List (String × List (String × String)))))
    (question : String) : AdviceResult :=
  match search with
  | none => fallback_response question
  | some s =>
    match s question 3 with
    | .error _ => fallback_response question
    | .ok docs =>
      if docs.isEmpty then fallback_response question
      else
        { answer := generate_response question
            (String.intercalate "\n" (docs.map (·.1)))
        , sources := docs.map (·.2)
        , confidence := if 2 ≤ docs.length then 8/10 else 6/10 }

/-- The no-knowledge-base answer of the rasa-service `get_travel_advice`. -/
def rasa_unavailable_text : String :=
  "I\x27m sorry, but my knowledge base is not available right now. However, I can provide basic sustainable travel advice based on general principles."

/-- The except-branch answer of the rasa-service `get_travel_advice`. -/
def rasa_error_text : String :=
  "I encountered an error while processing your question. Please try rephrasing it."

/-- `SustainableTravelRAGService.get_travel_advice`: `qa_chain` is absent
when initialisation failed; a raising chain call resolves to the error
answer with confidence 0.0, a successful one to the chain's answer scored
by `_calculate_confidence`. -/
def rasa_get_travel_advice
    (qa_chain : Option (String → Except String (String × List (List (String × String)))))
    (question : String) : AdviceResult :=
  match qa_chain with
  | none => { answer := rasa_unavailable_text, sources := [], confidence := 1/2 }
  | some chain =>
    match chain question with
    | .error _ => { answer := rasa_error_text, sources := [], confidence := 0 }
    | .ok (ans, srcs) =>
      { answer := ans, sources := srcs, confidence := calculate_confidence srcs ans }

/-- C6 (amended): the two `get_travel_advice` entry points never raise —
when the inner retrieval/chain step fails they return an explanatory answer
with reduced confidence (the 0.5 fallback resp. the 0.0 error answer).
`RAGProcessor.ask` has no such handling (see the counterexample). -/
theorem C6_no_raise_travel_advice
    (search : String → ℕ → Except String (List (String × List (String × String))))
    (chain : String → Except String (String × List (List (String × String))))
    (q e1 e2 : String) :
    (search q 3 = .error e1 →
      simple_get_travel_advice (some search) q = fallback_response q ∧
      (fallback_response q).confidence = 1/2 ∧
      (fallback_response q).sources = []) ∧
    (chain q = .error e2 →
      rasa_get_travel_advice (some chain) q =
        { answer := rasa_error_text, sources := [], confidence := 0 }) := by
  constructor
  · intro h
    exact ⟨by simp [simple_get_travel_advice, h], rfl, rfl⟩
  · intro h
    simp [rasa_get_travel_advice, h]

/-- C6 (witness): concrete failing collaborators — a search that times out
and a chain that is down — both resolve to their explanatory answers. -/
theorem C6_no_raise_travel_advice_witness :
    simple_get_travel_advice (some (fun _ _ => .error "timeout")) "eco trip" =
      fallback_response "eco trip" ∧
    rasa_get_travel_advice (some (fun _ => .error "down")) "eco trip" =
      { answer := rasa_error_text, sources := [], confidence := 0 } := by
  have h := C6_no_raise_travel_advice (fun _ _ => .error "timeout")
    (fun _ => .error "down") "eco trip" "timeout" "down"
  exact ⟨(h.1 rfl).1, h.2 rfl⟩

/-- C7 (amended): the fallback answer is deterministic and drawn from a
fixed four-entry rule table — destination, transport and accommodation
keyword rules plus one generic default (budget- and carbon-specific rules do
not exist) — always with confidence exactly 0.5 and no sources. -/
theorem C7_fallback_fixed_table (q : String) :
    (fallback_response q).confidence = 1/2 ∧
    (fallback_response q).sources = [] ∧
    (fallback_response q).answer ∈
      [fallback_dest_text, fallback_transport_text, fallback_accom_text,
        fallback_generic_text] := by
  refine ⟨rfl, rfl, ?_⟩
  unfold fallback_response
  dsimp only
  split_ifs <;> simp

/-- C7 (counterexample): a carbon question and a budget question receive
the same generic default answer as an unrelated greeting — the rule table
contains no carbon or budget category, contrary to the claim. -/
theorem C7_counterexample :
    (fallback_response "carbon footprint reduction").answer = fallback_generic_text ∧
    (fallback_response "cheap budget tips").answer = fallback_generic_text ∧
    (fallback_response "hi").answer = fallback_generic_text ∧
    fallback_generic_text ≠ fallback_dest_text := by
  refine ⟨rfl, rfl, rfl, by decide⟩
